import Mathlib

/-!
Shallow embedding of `bootstrap/shell/shell.go` (package `shell`), the
command-execution core of the agent.  Paths follow the Unix flavour of Go's
`path` / `path/filepath` packages (the source targets macOS / Linux / Windows;
the Unix semantics is the one embedded, matching the constants used by the
source such as `syscall.EIO`).  Pure functions of the source become Lean
functions; effectful calls (filesystem stats, process spawning, lock attempts,
context cancellation) are passed in explicitly as oracle parameters.
-/

/-- Model of a Go `error` value as used by this package: `*exec.ExitError`
(whose `Sys()` yields a `syscall.WaitStatus` exit status when in the expected
form), `*os.PathError` (carrying an errno, e.g. `syscall.EIO`), a plain
`fmt.Errorf` error (which does not expose a cause), and a
`github.com/pkg/errors.Wrapf` wrapper (which does). -/
inductive GoError where
  | exitError (status : Option Int)
  | pathError (op file : String) (errno : Nat)
  | errorf (msg : String)
  | wrapped (msg : String) (cause : GoError)
deriving DecidableEq, Repr

/-- Function `errors.Cause` from `github.com/pkg/errors`: repeatedly unwraps `Wrapf`
wrappers; all other errors are their own cause. -/
def errorsCause : GoError → GoError
  | .wrapped _ c => errorsCause c
  | e => e

/-- The errno of `syscall.EIO` on Unix. -/
def eioErrno : Nat := 5

/-- Function `GetExitCode` (shell.go:352-366): 0 for a nil error; for an
`*exec.ExitError` cause whose `Sys()` is a `syscall.WaitStatus`, the native
exit status; otherwise 1. -/
def GetExitCode : Option GoError → Int
  | none => 0
  | some err =>
    match errorsCause err with
    | .exitError (some status) => status
    | _ => 1

/-- Returns `true` iff the character list begins with `'/'`. -/
def isSlashHead (cs : List Char) : Bool := cs.head? == some '/'

/-- Go `path.IsAbs` (used by `AbsolutePath`, shell.go:107): the path begins
with a slash. -/
def pathIsAbs (p : String) : Bool := isSlashHead p.data

/-- Go `filepath.IsAbs`, Unix flavour (used by `Chdir`, shell.go:89): the path
begins with a slash. -/
def filepathIsAbs (p : String) : Bool := isSlashHead p.data

/-- Split a character list on `'/'` into components. -/
def splitSlash : List Char → List (List Char)
  | [] => [[]]
  | c :: rest =>
    if c = '/' then [] :: splitSlash rest
    else
      match splitSlash rest with
      | [] => [[c]]
      | p :: ps => (c :: p) :: ps

/-- The component-processing loop of Go `path.Clean`: drop empty and `"."`
components, let `".."` pop the previous component (dropped at the root of a
rooted path, kept at the front of a relative path). -/
def cleanParts (abs : Bool) : List (List Char) → List (List Char) → List (List Char)
  | acc, [] => acc.reverse
  | acc, p :: rest =>
    if p = [] ∨ p = ['.'] then cleanParts abs acc rest
    else if p = ['.', '.'] then
      match acc with
      | [] => if abs then cleanParts abs [] rest else cleanParts abs [['.', '.']] rest
      | a :: as' =>
        if a = ['.', '.'] then cleanParts abs (['.', '.'] :: a :: as') rest
        else cleanParts abs as' rest
    else cleanParts abs (p :: acc) rest

/-- Join components with `'/'`. -/
def intercalateSlash : List (List Char) → List Char
  | [] => []
  | [p] => p
  | p :: rest => p ++ '/' :: intercalateSlash rest

/-- Go `path.Clean` on a character list: lexical simplification, rootedness
preserved, empty path cleans to `"."`. -/
def cleanCs (cs : List Char) : List Char :=
  let parts := cleanParts (isSlashHead cs) [] (splitSlash cs)
  if isSlashHead cs then '/' :: intercalateSlash parts
  else if parts = [] then ['.']
  else intercalateSlash parts

/-- Go `filepath.Clean` (Unix flavour). -/
def clean (p : String) : String := ⟨cleanCs p.data⟩

/-- Go `filepath.Join` of two elements (Unix flavour): empty elements are
skipped, the rest joined with `'/'` and cleaned; all-empty input gives `""`. -/
def goJoin (a b : String) : String :=
  if a = "" ∧ b = "" then ""
  else if a = "" then clean b
  else if b = "" then clean a
  else clean (a ++ "/" ++ b)

/-- Modelled from the spec: the environment key-value container collaborator
(§6, `github.com/buildkite/agent/env`, not under src/): an ordered mapping of
variable name to value, last write wins on lookup and merge. -/
structure Env where
  entries : List (String × String)
deriving DecidableEq, Repr

/-- Modelled from the spec: `get(key) → (value, found)`; the latest binding of
the key wins. -/
def Env.get (e : Env) (k : String) : Option String :=
  e.entries.reverse.lookup k

/-- Modelled from the spec: `toFlatList() → ordered list of "KEY=VALUE"`
(the `ToSlice` used at shell.go:266). -/
def Env.toSlice (e : Env) : List String :=
  e.entries.map fun kv => kv.1 ++ "=" ++ kv.2

/-- Modelled from the spec: setting a variable on the container appends a
binding that shadows earlier ones (last write wins). -/
def Env.set (e : Env) (k v : String) : Env :=
  ⟨e.entries ++ [(k, v)]⟩

/-- What `os.Stat` can report about a path that exists. -/
inductive EntryKind where
  | file
  | dir
deriving DecidableEq, Repr

/-- Filesystem oracle: `stat p = some kind` models `os.Stat(p)` succeeding,
`none` models it returning an error (path does not exist). -/
structure FS where
  stat : String → Option EntryKind

/-- The `Shell` struct (shell.go:32-52), minus the logger and writer
collaborators (never consulted for control flow) and with the context
abstracted where it is consumed (`LockFile`). -/
structure ShellState where
  env : Env
  pty : Bool
  debug : Bool
  wd : String
deriving DecidableEq, Repr

/-- Function `New` (shell.go:55-68): on `os.Getwd` failure, a wrapped error; otherwise a
shell whose working directory is the process's current directory and whose
environment is the process environment.  `getwdResult` is the `os.Getwd`
oracle, `procEnv` the `env.FromSlice(os.Environ())` snapshot. -/
def New (getwdResult : Except GoError String) (procEnv : Env) :
    Except GoError ShellState :=
  match getwdResult with
  | .error e => .error (.wrapped "Failed to find current working directory" e)
  | .ok wd => .ok { env := procEnv, pty := false, debug := false, wd := wd }

/-- Method `Chdir` (shell.go:87-101): a relative path is joined onto the current
working directory; the result is committed as the new working directory iff
`os.Stat` succeeds on it, otherwise an error is returned and the shell is
unchanged.  (The informational `Commentf` notice is logging only.) -/
def Chdir (fs : FS) (s : ShellState) (p : String) : Option GoError × ShellState :=
  let p := if filepathIsAbs p then p else goJoin s.wd p
  match fs.stat p with
  | none => (some (.errorf "Failed to change working: directory does not exist"), s)
  | some _ => (none, { s with wd := p })

/-- Method `AbsolutePath` (shell.go:105-123).  An already-absolute executable (per
`path.IsAbs`) is returned as-is; otherwise the package-level `lookPath`
(defined in a platform file of this package that is not under src/, hence a
parameter here) is consulted with the shell's `PATH` and `PATHEXT`, and its
result is made absolute via `filepath.Abs` (which consults the process working
directory, hence the `toAbs` parameter). -/
def AbsolutePath (lookPathFn : String → String → String → Except GoError String)
    (toAbs : String → String) (s : ShellState) (executable : String) :
    Except GoError String :=
  if pathIsAbs executable then .ok executable
  else
    let envPath := (s.env.get "PATH").getD ""
    let fileExtensions := (s.env.get "PATHEXT").getD ""
    match lookPathFn executable envPath fileExtensions with
    | .error e => .error e
    | .ok absolutePath => .ok (toAbs absolutePath)

/-- The fields of the `exec.Cmd` descriptor set by `buildCommand`. -/
structure Cmd where
  path : String
  args : List String
  env : List String
  dir : String
deriving DecidableEq, Repr

/-- Method `buildCommand` (shell.go:258-270): resolve the name to an absolute path,
then snapshot the shell's environment (flattened) and working directory into
the descriptor. -/
def buildCommand (lookPathFn : String → String → String → Except GoError String)
    (toAbs : String → String) (s : ShellState) (name : String)
    (args : List String) : Except GoError Cmd :=
  match AbsolutePath lookPathFn toAbs s name with
  | .error e => .error e
  | .ok absPath =>
    .ok { path := absPath, args := args, env := s.env.toSlice, dir := s.wd }

/-- Struct `executeFlags` (shell.go:272-281). -/
structure ExecuteFlags where
  Stdout : Bool
  Stderr : Bool
  PTY : Bool
deriving DecidableEq, Repr

/-- A destination an `exec.Cmd` standard stream can be wired to in
`executeCommand`: the caller-supplied writer `w`, a `LoggerStreamer`, an
`io.MultiWriter` over a streamer and `w`, or `nil` (disconnected). -/
inductive Sink where
  | writer
  | loggerStreamer
  | multiWriterLoggerAndWriter
  | null
deriving DecidableEq, Repr

/-- The stdout/stderr/stdin wiring of the child process. -/
structure Wiring where
  stdout : Sink
  stderr : Sink
  stdin : Sink
deriving DecidableEq, Repr

/-- The non-PTY wiring of `executeCommand` (shell.go:317-332): stdout goes to
`w`, stderr and stdin are set to `nil`; in debug mode stdout is additionally
teed to a logger streamer and stderr goes to a second logger streamer.  The
`flags` argument is in scope at these lines but its `Stdout` and `Stderr`
fields are never read there. -/
def pipeWiring (debug : Bool) (_flags : ExecuteFlags) : Wiring :=
  if debug then
    { stdout := .multiWriterLoggerAndWriter, stderr := .loggerStreamer, stdin := .null }
  else
    { stdout := .writer, stderr := .null, stdin := .null }

/-- Oracle for one child-process execution, covering both modes:
`startPTY` is the result of `process.StartPTY(cmd)`; on success `ptyOutput`
is what `io.Copy(w, pty)` delivers to `w` and `copyErr` its returned error.
`startErr` is the result of `cmd.Start()` in pipe mode, `output` what the
child writes on stdout and `errOutput` what it writes on stderr, and
`waitErr` the result of `cmd.Wait()`. -/
structure ProcBehavior where
  startPTY : Option GoError
  ptyOutput : String
  copyErr : Option GoError
  startErr : Option GoError
  output : String
  errOutput : String
  waitErr : Option GoError
deriving DecidableEq, Repr

/-- The test the PTY branch of `executeCommand` applies to the `io.Copy`
error (shell.go:312): is it an `*os.PathError` whose `Err` is `syscall.EIO`? -/
def isBenignPtyError : Option GoError → Bool
  | some (.pathError _ _ errno) => errno == eioErrno
  | _ => false

/-- What `executeCommand` produces: the bytes delivered to the caller's
writer `w`, and the returned error. -/
structure ExecResult where
  written : String
  err : Option GoError
deriving DecidableEq, Repr

/-- Method `executeCommand` (shell.go:283-348), with the signal-forwarding goroutine
(shell.go:284-299, set up and torn down unconditionally, never consulted for
the return value) elided.  In PTY mode the child is started on a
pseudo-terminal and the terminal is copied to `w`; the copy error is tested
against the benign `*os.PathError`/`EIO` pattern by an `if` statement whose
body is empty and which has no `else` branch (shell.go:312-316), so the copy
error does not reach the return value in either case.  In pipe mode the child
is wired per `pipeWiring` and started, a start failure being returned wrapped
as "Error starting ...".  Either way the function then waits; a wait failure
is returned wrapped as "Error running ...". -/
def executeCommand (debug : Bool) (beh : ProcBehavior) (flags : ExecuteFlags)
    (cmdStr : String) : ExecResult :=
  if flags.PTY then
    match beh.startPTY with
    | some e =>
      { written := ""
        err := some (.errorf ("Error starting PTY: " ++ toString (repr e))) }
    | none =>
      let _ := isBenignPtyError beh.copyErr
      match beh.waitErr with
      | some e =>
        { written := beh.ptyOutput
          err := some (.wrapped ("Error running `" ++ cmdStr ++ "`") e) }
      | none => { written := beh.ptyOutput, err := none }
  else
    let wiring := pipeWiring debug flags
    match beh.startErr with
    | some e =>
      { written := "", err := some (.wrapped ("Error starting `" ++ cmdStr ++ "`") e) }
    | none =>
      let written := if wiring.stdout = .null then "" else beh.output
      match beh.waitErr with
      | some e =>
        { written := written
          err := some (.wrapped ("Error running `" ++ cmdStr ++ "`") e) }
      | none => { written := written, err := none }

/-- Modelled from the spec: the command display formatter collaborator (§6,
`process.FormatCommand`, not under src/); purely cosmetic. -/
def formatCommand (cmdPath : String) (args : List String) : String :=
  cmdPath ++ " " ++ String.intercalate " " args

/-- Method `Run` (shell.go:167-181): build the command, then execute it against the
shell's writer with `Stdout` and `Stderr` capture requested and the shell's
PTY flag. -/
def Run (lookPathFn : String → String → String → Except GoError String)
    (toAbs : String → String) (beh : ProcBehavior) (s : ShellState)
    (command : String) (args : List String) : Option GoError :=
  match buildCommand lookPathFn toAbs s command args with
  | .error e => some e
  | .ok cmd =>
    (executeCommand s.debug beh { Stdout := true, Stderr := true, PTY := s.pty }
      (formatCommand cmd.path args)).err

/-- Go `unicode.IsSpace` for the code points `strings.TrimSpace` trims. -/
def goIsSpace (c : Char) : Bool :=
  c = ' ' ∨ c = '\t' ∨ c = '\n' ∨ c.val = 11 ∨ c.val = 12 ∨ c = '\r' ∨
    c.val = 0x85 ∨ c.val = 0xA0 ∨ c.val = 0x1680 ∨
    (0x2000 ≤ c.val ∧ c.val ≤ 0x200A) ∨ c.val = 0x2028 ∨ c.val = 0x2029 ∨
    c.val = 0x202F ∨ c.val = 0x205F ∨ c.val = 0x3000

/-- Go `strings.TrimSpace`: drop leading and trailing white space. -/
def trimSpace (s : String) : String :=
  ⟨((s.data.dropWhile goIsSpace).reverse.dropWhile goIsSpace).reverse⟩

/-- Method `RunAndCapture` (shell.go:186-208): build the command, execute it into a
fresh buffer with flags `Stdout := true`, `Stderr := false`, `PTY := false`,
and on success return the buffer's contents with surrounding white space
trimmed. -/
def RunAndCapture (lookPathFn : String → String → String → Except GoError String)
    (toAbs : String → String) (beh : ProcBehavior) (s : ShellState)
    (command : String) (args : List String) : Except GoError String :=
  match buildCommand lookPathFn toAbs s command args with
  | .error e => .error e
  | .ok cmd =>
    let r := executeCommand s.debug beh { Stdout := true, Stderr := false, PTY := false }
      (formatCommand cmd.path args)
    match r.err with
    | some e => .error e
    | none => .ok (trimSpace r.written)

/-- Outcome of the retry loop of `LockFile`:
`acquired i` — `lock.TryLock()` succeeded on attempt `i` (after `i` failed
attempts, each followed by one `lockRetryDuration` sleep);
`cancelled n` — the loop returned `ctx.Err()` after `n` sleeps;
`outOfFuel` — the observation budget ran out before the loop returned. -/
inductive LockResult where
  | acquired (attempts : Nat)
  | cancelled (sleeps : Nat)
  | outOfFuel
deriving DecidableEq, Repr

/-- The retry loop of `LockFile` (shell.go:145-161).  Attempt `i` calls
`lock.TryLock()` (`tryLock i = true` means it succeeded): on success the loop
breaks with the lock; on failure it sleeps one `lockRetryDuration`, then polls
the cancellation context (`ctxDone i = true` means `ctx.Done()` — the deadline
derived from the shell's context and the timeout, shell.go:142 — had fired by
the poll that follows sleep `i`) and returns `ctx.Err()` if it has fired,
otherwise retries.  `fuel` bounds how many iterations we observe. -/
def lockLoop (tryLock ctxDone : Nat → Bool) : Nat → Nat → LockResult
  | _, 0 => .outOfFuel
  | i, fuel + 1 =>
    if tryLock i then .acquired i
    else if ctxDone i then .cancelled (i + 1)
    else lockLoop tryLock ctxDone (i + 1) fuel

/-- Method `LockFile` (shell.go:131-164) around the loop: resolve the lock path to
absolute form (`filepath.Abs`, oracle `absResult`), create the lockfile
(`newErr` the oracle for `lockfile.New`), then run the retry loop;
`ctxErrVal` is the `ctx.Err()` value (deadline exceeded or cancelled). -/
def LockFileAcquire (absResult : Except GoError String) (newErr : Option GoError)
    (ctxErrVal : GoError) (tryLock ctxDone : Nat → Bool) (fuel : Nat) :
    Except GoError LockResult :=
  match absResult with
  | .error _ => .error (.errorf "Failed to find absolute path to lock")
  | .ok _ =>
    match newErr with
    | some _ => .error (.errorf "Failed to create lock")
    | none =>
      match lockLoop tryLock ctxDone 0 fuel with
      | .cancelled _ => .error ctxErrVal
      | r => .ok r

/-- A mutation a caller can perform on the shell after building a command:
`Chdir`, or setting an environment variable on `s.Env`. -/
inductive Mutation where
  | chdir (p : String)
  | setEnv (k v : String)
deriving DecidableEq, Repr

/-- Apply one mutation to the shell state. -/
def applyMutation (fs : FS) (s : ShellState) : Mutation → ShellState
  | .chdir p => (Chdir fs s p).2
  | .setEnv k v => { s with env := s.env.set k v }

/-- Apply a sequence of mutations to the shell state. -/
def applyMutations (fs : FS) (s : ShellState) (ms : List Mutation) : ShellState :=
  ms.foldl (applyMutation fs) s

/-- A session holding the shell together with a descriptor built earlier, to
state frame properties of `buildCommand` snapshots. -/
structure Session where
  shell : ShellState
  built : Option Cmd
deriving DecidableEq, Repr

/-- A session step: build a command (storing the descriptor on success), or
mutate the shell. -/
inductive Step where
  | build (name : String) (args : List String)
  | mut (m : Mutation)

/-- Session semantics of one step. -/
def stepSession (lookPathFn : String → String → String → Except GoError String)
    (toAbs : String → String) (fs : FS) (st : Session) : Step → Session
  | .build name args =>
    match buildCommand lookPathFn toAbs st.shell name args with
    | .ok c => { st with built := some c }
    | .error _ => st
  | .mut m => { st with shell := applyMutation fs st.shell m }

/-- Session semantics of a list of steps. -/
def runSession (lookPathFn : String → String → String → Except GoError String)
    (toAbs : String → String) (fs : FS) (st : Session) (steps : List Step) :
    Session :=
  steps.foldl (stepSession lookPathFn toAbs fs) st

/-! Concrete fixtures used to evaluate the model on particular inputs. -/

/-- A `lookPath` oracle that finds nothing. -/
def lpNone : String → String → String → Except GoError String :=
  fun _ _ _ => .error (.errorf "file does not exist")

/-- A shell sitting at the filesystem root with an empty environment. -/
def shellAtRoot : ShellState :=
  { env := ⟨[]⟩, pty := false, debug := false, wd := "/" }

/-- A filesystem where `/etc/passwd` is an existing regular file and nothing
else exists. -/
def fsEtcPasswdFile : FS :=
  ⟨fun p => if p = "/etc/passwd" then some .file else none⟩

/-- A shell sitting at `/a` with an empty environment. -/
def shellAtA : ShellState :=
  { env := ⟨[]⟩, pty := false, debug := false, wd := "/a" }

/-- A filesystem where `/a/b` is an existing directory and nothing else
exists. -/
def fsAB : FS :=
  ⟨fun p => if p = "/a/b" then some .dir else none⟩

/-- The behaviour of `echo hello`: no start failure, `"hello\n"` on stdout,
successful exit. -/
def behEcho : ProcBehavior :=
  { startPTY := none, ptyOutput := "", copyErr := none, startErr := none,
    output := "hello\n", errOutput := "", waitErr := none }

/-- A PTY execution whose output copy fails with an error that is not the
benign `*os.PathError`/`EIO` artifact, while the child itself exits
successfully. -/
def behBrokenCopy : ProcBehavior :=
  { startPTY := none, ptyOutput := "partial", copyErr := some (.errorf "copy failed"),
    startErr := none, output := "", errOutput := "", waitErr := none }

/-! Helper lemmas. -/

theorem isSlashHead_append (a b : List Char) (h : isSlashHead a = true) :
    isSlashHead (a ++ b) = true := by
  cases a with
  | nil => simp [isSlashHead] at h
  | cons c cs => simpa [isSlashHead] using h

theorem isSlashHead_cleanCs (cs : List Char) (h : isSlashHead cs = true) :
    isSlashHead (cleanCs cs) = true := by
  have hh : cs.head? = some '/' := by simpa [isSlashHead] using h
  simp [cleanCs, isSlashHead, hh]

theorem filepathIsAbs_clean (p : String) (h : filepathIsAbs p = true) :
    filepathIsAbs (clean p) = true := by
  simpa [clean, filepathIsAbs] using isSlashHead_cleanCs p.data h

theorem filepathIsAbs_append (a b : String) (h : filepathIsAbs a = true) :
    filepathIsAbs (a ++ b) = true := by
  cases a with
  | mk la =>
    cases b with
    | mk lb =>
      simpa [filepathIsAbs, String.append] using
        isSlashHead_append la lb (by simpa [filepathIsAbs] using h)

theorem filepathIsAbs_ne_empty (a : String) (h : filepathIsAbs a = true) :
    a ≠ "" := by
  intro he
  subst he
  simp [filepathIsAbs, isSlashHead] at h

theorem filepathIsAbs_goJoin (a b : String) (h : filepathIsAbs a = true) :
    filepathIsAbs (goJoin a b) = true := by
  have hne : a ≠ "" := filepathIsAbs_ne_empty a h
  unfold goJoin
  by_cases hb : b = ""
  · simp [hne, hb, filepathIsAbs_clean a h]
  · simp [hne, hb, filepathIsAbs_clean _ (filepathIsAbs_append _ _ (filepathIsAbs_append _ _ h))]

/-! Claim theorems. -/

/-- C3: `GetExitCode` returns 0 for a nil error; an error whose cause is an
`*exec.ExitError` with an extractable platform status translates to exactly
that status (in particular a wrapped exit with status 3 yields 3, unwrapping
the contextual wrapping `executeCommand` applies); when no status is
extractable any non-nil error yields 1. -/
theorem getExitCode_translation :
    GetExitCode none = 0 ∧
    (∀ (e : GoError) (st : Int), errorsCause e = .exitError (some st) →
      GetExitCode (some e) = st) ∧
    (∀ (e : GoError), (∀ st : Int, errorsCause e ≠ .exitError (some st)) →
      GetExitCode (some e) = 1) ∧
    (∀ (debug : Bool) (beh : ProcBehavior) (flags : ExecuteFlags)
        (cmdStr : String) (n : Int),
      flags.PTY = false → beh.startErr = none →
      beh.waitErr = some (.exitError (some n)) →
      GetExitCode (executeCommand debug beh flags cmdStr).err = n) := by
  refine ⟨rfl, ?_, ?_, ?_⟩
  · intro e st h
    simp [GetExitCode, h]
  · intro e h
    rcases he : errorsCause e with st | _ | _ | _
    · rcases st with _ | st
      · simp [GetExitCode, he]
      · exact absurd he (h st)
    · simp [GetExitCode, he]
    · simp [GetExitCode, he]
    · simp [GetExitCode, he]
  · intro debug beh flags cmdStr n hp hs hw
    simp [executeCommand, hp, hs, hw, GetExitCode, errorsCause]

/-- Witness for C3: the wrapped error of a command exiting with status 3
translates to exactly 3, and a nil error to 0. -/
theorem getExitCode_translation_witness :
    GetExitCode none = 0 ∧
    GetExitCode (some (.wrapped "Error running `false`" (.exitError (some 3)))) = 3 ∧
    GetExitCode (some (.errorf "no such file")) = 1 ∧
    GetExitCode (executeCommand false
      { behEcho with waitErr := some (.exitError (some 3)) }
      { Stdout := true, Stderr := true, PTY := false } "sh").err = 3 := by
  refine ⟨getExitCode_translation.1, ?_, ?_, ?_⟩
  · exact getExitCode_translation.2.1 _ 3 rfl
  · exact getExitCode_translation.2.2.1 _ (by intro st h; cases h)
  · exact getExitCode_translation.2.2.2 false _ _ "sh" 3 rfl rfl rfl

/-- C10: any non-nil error whose cause is not an `*exec.ExitError` (such as a
spawn failure wrapped by `executeCommand`, or the `fmt.Errorf` produced on a
PTY start failure) translates to 1, as does an `*exec.ExitError` whose
platform status is not in the extractable `syscall.WaitStatus` form. -/
theorem getExitCode_nonExit_is_one :
    (∀ (e : GoError), (∀ st : Int, errorsCause e ≠ .exitError (some st)) →
      GetExitCode (some e) = 1) ∧
    (∀ msg : String, GetExitCode (some (.errorf msg)) = 1) ∧
    (∀ (e : GoError), errorsCause e = .exitError none →
      GetExitCode (some e) = 1) ∧
    (∀ (debug : Bool) (beh : ProcBehavior) (flags : ExecuteFlags)
        (cmdStr msg : String),
      flags.PTY = false → beh.startErr = some (.errorf msg) →
      GetExitCode (executeCommand debug beh flags cmdStr).err = 1) := by
  refine ⟨?_, ?_, ?_, ?_⟩
  · intro e h
    rcases he : errorsCause e with st | _ | _ | _
    · rcases st with _ | st
      · simp [GetExitCode, he]
      · exact absurd he (h st)
    · simp [GetExitCode, he]
    · simp [GetExitCode, he]
    · simp [GetExitCode, he]
  · intro msg
    simp [GetExitCode, errorsCause]
  · intro e he
    simp [GetExitCode, he]
  · intro debug beh flags cmdStr msg hp hs
    simp [executeCommand, hp, hs, GetExitCode, errorsCause]

/-- Witness for C10: a spawn failure and a non-extractable exit error both
translate to 1. -/
theorem getExitCode_nonExit_is_one_witness :
    GetExitCode (some (.wrapped "Error starting `x`" (.errorf "exec format error"))) = 1 ∧
    GetExitCode (some (.errorf "Error starting PTY: boom")) = 1 ∧
    GetExitCode (some (.exitError none)) = 1 ∧
    GetExitCode (executeCommand false
      { behEcho with startErr := some (.errorf "permission denied") }
      { Stdout := true, Stderr := true, PTY := false } "x").err = 1 := by
  refine ⟨?_, ?_, ?_, ?_⟩
  · exact getExitCode_nonExit_is_one.1 _ (by intro st h; cases h)
  · exact getExitCode_nonExit_is_one.2.1 "Error starting PTY: boom"
  · exact getExitCode_nonExit_is_one.2.2.1 _ rfl
  · exact getExitCode_nonExit_is_one.2.2.2 false _ _ "x" "permission denied" rfl rfl

/-- C8: an executable name already in absolute form is returned unchanged by
`AbsolutePath`, and the result does not depend on the `lookPath` search (nor
on the shell's environment, which holds the `PATH` and `PATHEXT` lists). -/
theorem absolutePath_absolute_unchanged :
    ∀ (lp lp' : String → String → String → Except GoError String)
      (ta ta' : String → String) (s s' : ShellState) (e : String),
      pathIsAbs e = true →
      AbsolutePath lp ta s e = .ok e ∧
      AbsolutePath lp ta s e = AbsolutePath lp' ta' s' e := by
  intro lp lp' ta ta' s s' e h
  constructor <;> simp [AbsolutePath, h]

/-- Witness for C8: `/bin/ls` is returned unchanged, even under a `lookPath`
that finds nothing and an empty environment. -/
theorem absolutePath_absolute_unchanged_witness :
    pathIsAbs "/bin/ls" = true ∧
    AbsolutePath lpNone id shellAtRoot "/bin/ls" = .ok "/bin/ls" := by
  refine ⟨by decide, ?_⟩
  exact (absolutePath_absolute_unchanged lpNone lpNone id id shellAtRoot
    shellAtRoot "/bin/ls" (by decide)).1

/-- C1 (code evaluated at the failing input): in PTY mode `executeCommand`
swallows an output-copy error that is not the benign `*os.PathError`/`EIO`
artifact — with a successful wait it returns success, because the test at
shell.go:312-316 has an empty body and no else branch, so no copy error is
ever propagated. -/
theorem executeCommand_pty_swallows_copy_error :
    isBenignPtyError behBrokenCopy.copyErr = false ∧
    executeCommand false behBrokenCopy
        { Stdout := true, Stderr := true, PTY := true } "cmd"
      = { written := "partial", err := none } := by
  constructor <;> rfl

/-- C9: in non-PTY mode the `Stdout`/`Stderr` fields of `executeFlags` have no
effect on the wiring or the result: any two flag values with `PTY = false`
produce the same wiring and the same execution result (in particular the
`Stderr := true` requested by `Run` changes nothing), and with debug off the
wiring always connects stdout to the sink and disconnects stderr and stdin. -/
theorem pipe_wiring_ignores_capture_flags :
    ∀ (d : Bool) (f f' : ExecuteFlags) (beh : ProcBehavior) (cs : String),
      f.PTY = false → f'.PTY = false →
      pipeWiring d f = pipeWiring d f' ∧
      executeCommand d beh f cs = executeCommand d beh f' cs ∧
      pipeWiring false f = { stdout := .writer, stderr := .null, stdin := .null } ∧
      executeCommand d beh { Stdout := true, Stderr := true, PTY := false } cs
        = executeCommand d beh { Stdout := false, Stderr := false, PTY := false } cs := by
  intro d beh f cs beh' hf hf'
  refine ⟨rfl, ?_, rfl, ?_⟩
  · simp [executeCommand, hf, hf', pipeWiring]
  · simp [executeCommand, pipeWiring]

/-- Witness for C9: the flags `Run` passes (stdout and stderr capture
requested) and flags requesting nothing produce identical wiring and results
for the `echo hello` behaviour. -/
theorem pipe_wiring_ignores_capture_flags_witness :
    pipeWiring false { Stdout := true, Stderr := true, PTY := false }
      = { stdout := .writer, stderr := .null, stdin := .null } ∧
    executeCommand false behEcho { Stdout := true, Stderr := true, PTY := false } "echo hello"
      = executeCommand false behEcho { Stdout := false, Stderr := false, PTY := false } "echo hello" := by
  have h := pipe_wiring_ignores_capture_flags false
    { Stdout := true, Stderr := true, PTY := false }
    { Stdout := false, Stderr := false, PTY := false } behEcho "echo hello" rfl rfl
  exact ⟨h.2.2.1, h.2.1⟩

theorem runSession_muts_built
    (lp : String → String → String → Except GoError String)
    (ta : String → String) (fs : FS) :
    ∀ (ms : List Mutation) (st : Session),
      (runSession lp ta fs st (ms.map .mut)).built = st.built := by
  intro ms
  induction ms with
  | nil => intro st; rfl
  | cons m ms ih =>
    intro st
    simpa [runSession, stepSession] using ih { st with shell := applyMutation fs st.shell m }

/-- C7: `buildCommand` snapshots the shell's working directory and flattened
environment into the descriptor at build time; a built descriptor stored in a
session is unchanged by any subsequent sequence of `Chdir` or environment
mutations on the shell. -/
theorem buildCommand_snapshot :
    ∀ (lp : String → String → String → Except GoError String)
      (ta : String → String) (fs : FS) (s : ShellState) (name : String)
      (args : List String) (cmd : Cmd) (ms : List Mutation),
      buildCommand lp ta s name args = .ok cmd →
      cmd.dir = s.wd ∧ cmd.env = s.env.toSlice ∧
      (runSession lp ta fs { shell := s, built := none }
        (.build name args :: ms.map .mut)).built = some cmd := by
  intro lp ta fs s name args cmd ms h
  have hde : cmd.dir = s.wd ∧ cmd.env = s.env.toSlice := by
    unfold buildCommand at h
    rcases ha : AbsolutePath lp ta s name with e | absPath <;> rw [ha] at h
    · cases h
    · cases h
      exact ⟨rfl, rfl⟩
  refine ⟨hde.1, hde.2, ?_⟩
  have : (stepSession lp ta fs { shell := s, built := none } (.build name args))
      = { shell := s, built := some cmd } := by
    simp [stepSession, h]
  simpa [runSession, this] using
    runSession_muts_built lp ta fs ms { shell := s, built := some cmd }

/-- Witness for C7: a descriptor built at `/` keeps `dir = "/"` and the empty
environment snapshot across a later `Chdir` and environment write. -/
theorem buildCommand_snapshot_witness :
    buildCommand lpNone id shellAtRoot "/bin/ls" [] =
      .ok { path := "/bin/ls", args := [], env := [], dir := "/" } ∧
    (runSession lpNone id fsEtcPasswdFile { shell := shellAtRoot, built := none }
      (.build "/bin/ls" [] :: [Mutation.chdir "/etc/passwd", .setEnv "A" "1"].map .mut)).built
      = some { path := "/bin/ls", args := [], env := [], dir := "/" } := by
  refine ⟨rfl, ?_⟩
  exact (buildCommand_snapshot lpNone id fsEtcPasswdFile shellAtRoot "/bin/ls" []
    { path := "/bin/ls", args := [], env := [], dir := "/" }
    [Mutation.chdir "/etc/passwd", .setEnv "A" "1"] rfl).2.2

/-- C6: `RunAndCapture` is independent of the shell's PTY flag and of the
whole PTY behaviour of the process (it always executes with
`PTY := false`), independent of what the child writes on stderr (stderr is
never captured into the buffer), and on a successful execution returns the
captured stdout with surrounding white space trimmed, with no error. -/
theorem runAndCapture_no_pty_trimmed :
    ∀ (lp : String → String → String → Except GoError String)
      (ta : String → String) (beh : ProcBehavior) (s : ShellState)
      (c : String) (args : List String) (b : Bool) (spe ce : Option GoError)
      (po eo : String),
      (RunAndCapture lp ta beh { s with pty := b } c args
        = RunAndCapture lp ta beh s c args) ∧
      (RunAndCapture lp ta
          { beh with startPTY := spe, ptyOutput := po, copyErr := ce, errOutput := eo }
          s c args
        = RunAndCapture lp ta beh s c args) ∧
      (∀ cmd, buildCommand lp ta s c args = .ok cmd →
        beh.startErr = none → beh.waitErr = none →
        RunAndCapture lp ta beh s c args = .ok (trimSpace beh.output)) := by
  intro lp ta beh s c args b spe ce po eo
  refine ⟨?_, ?_, ?_⟩
  · simp [RunAndCapture, buildCommand, AbsolutePath, Env.get, Env.toSlice, executeCommand]
  · simp [RunAndCapture, executeCommand, pipeWiring]
  · intro cmd hb hs hw
    cases hd : s.debug <;>
      simp [RunAndCapture, hb, executeCommand, pipeWiring, hd, hs, hw]

/-- Witness for C6: capturing `echo hello` returns exactly `"hello"` and no
error, also when the shell's PTY flag is set. -/
theorem runAndCapture_no_pty_trimmed_witness :
    RunAndCapture lpNone id behEcho shellAtRoot "/bin/echo" ["hello"] = .ok "hello" ∧
    RunAndCapture lpNone id behEcho { shellAtRoot with pty := true } "/bin/echo" ["hello"]
      = .ok "hello" := by
  have h := runAndCapture_no_pty_trimmed lpNone id behEcho shellAtRoot "/bin/echo"
    ["hello"] true none none "" ""
  have hok : RunAndCapture lpNone id behEcho shellAtRoot "/bin/echo" ["hello"]
      = .ok (trimSpace behEcho.output) :=
    h.2.2 { path := "/bin/echo", args := ["hello"], env := [], dir := "/" }
      rfl rfl rfl
  have ht : trimSpace behEcho.output = "hello" := by decide
  rw [ht] at hok
  exact ⟨hok, h.1.trans hok⟩

/-- C5: `Chdir` to a path whose resolved absolute form does not exist returns
an error and leaves the shell (in particular its working directory) unchanged;
`Chdir` to an existing relative path commits the prior working directory
joined with that path; `Chdir` to an existing already-absolute path commits it
unchanged. -/
theorem chdir_functional :
    ∀ (fs : FS) (s : ShellState) (p : String),
      (fs.stat (if filepathIsAbs p then p else goJoin s.wd p) = none →
        (Chdir fs s p).1.isSome ∧ (Chdir fs s p).2 = s) ∧
      (∀ k, filepathIsAbs p = false → fs.stat (goJoin s.wd p) = some k →
        Chdir fs s p = (none, { s with wd := goJoin s.wd p })) ∧
      (∀ k, filepathIsAbs p = true → fs.stat p = some k →
        Chdir fs s p = (none, { s with wd := p })) := by
  intro fs s p
  refine ⟨?_, ?_, ?_⟩
  · intro h
    simp [Chdir, h]
  · intro k ha h
    simp [Chdir, ha, h]
  · intro k ha h
    simp [Chdir, ha, h]

/-- Witness for C5: at `/a`, changing to the missing `"c"` fails and leaves
the shell unchanged; changing to the existing relative `"b"` commits
`/a` joined with `b`; changing to the existing absolute `"/a/b"` commits it
unchanged. -/
theorem chdir_functional_witness :
    ((Chdir fsAB shellAtA "c").1.isSome ∧ (Chdir fsAB shellAtA "c").2 = shellAtA) ∧
    Chdir fsAB shellAtA "b" = (none, { shellAtA with wd := goJoin "/a" "b" }) ∧
    Chdir fsAB shellAtA "/a/b" = (none, { shellAtA with wd := "/a/b" }) := by
  refine ⟨(chdir_functional fsAB shellAtA "c").1 (by decide),
    (chdir_functional fsAB shellAtA "b").2.1 .dir (by decide) ?_,
    (chdir_functional fsAB shellAtA "/a/b").2.2 .dir (by decide) (by decide)⟩
  decide

/-- Counterexample to C2 as stated: `Chdir` validates the resolved path with
`os.Stat` only, so it commits `/etc/passwd` — an existing regular file, not a
directory — as the new working directory.  The working directory is therefore
not always a directory after a successful mutation. -/
theorem chdir_commits_existing_file :
    (Chdir fsEtcPasswdFile shellAtRoot "/etc/passwd").1 = none ∧
    (Chdir fsEtcPasswdFile shellAtRoot "/etc/passwd").2.wd = "/etc/passwd" ∧
    fsEtcPasswdFile.stat "/etc/passwd" = some .file ∧
    fsEtcPasswdFile.stat "/etc/passwd" ≠ some .dir := by
  refine ⟨?_, ?_, ?_, ?_⟩ <;> decide

/-- C2 (amended): after any successful mutation the working directory is an
existing, absolute path (not necessarily a directory): it is set at
construction from the process's current directory, and `Chdir` commits a new
value only when the resolved absolute path exists. -/
theorem chdir_preserves_absolute_existing :
    ∀ (fs : FS) (s : ShellState) (p gw : String) (pe : Env) (s0 : ShellState),
      (New (.ok gw) pe = .ok s0 → s0.wd = gw) ∧
      (filepathIsAbs s.wd = true → (Chdir fs s p).1 = none →
        filepathIsAbs (Chdir fs s p).2.wd = true ∧
        (fs.stat (Chdir fs s p).2.wd).isSome) := by
  intro fs s p gw pe s0
  constructor
  · intro h
    cases h
    rfl
  · intro habs hsucc
    by_cases hp : filepathIsAbs p = true
    · rcases hstat : fs.stat p with _ | k
      · simp [Chdir, hp, hstat] at hsucc
      · refine ⟨?_, ?_⟩
        · simp [Chdir, hp, hstat]
        · simp [Chdir, hp, hstat]
    · have hp' : filepathIsAbs p = false := by simpa using hp
      rcases hstat : fs.stat (goJoin s.wd p) with _ | k
      · simp [Chdir, hp', hstat] at hsucc
      · refine ⟨?_, ?_⟩
        · simpa [Chdir, hp', hstat] using filepathIsAbs_goJoin s.wd p habs
        · simp [Chdir, hp', hstat]

/-- Witness for C2 (amended): a shell constructed at `/` has `wd = "/"`, and a
successful `Chdir` from `/a` to the relative `"b"` leaves an absolute,
existing working directory. -/
theorem chdir_preserves_absolute_existing_witness :
    shellAtRoot.wd = "/" ∧
    (filepathIsAbs (Chdir fsAB shellAtA "b").2.wd = true ∧
      (fsAB.stat (Chdir fsAB shellAtA "b").2.wd).isSome) := by
  have h := chdir_preserves_absolute_existing fsAB shellAtA "b" "/" ⟨[]⟩ shellAtRoot
  exact ⟨h.1 rfl, h.2 (by decide) (by decide)⟩

theorem lockLoop_reaches (tryLock ctxDone : Nat → Bool)
    (hT : ∀ i, tryLock i = false) :
    ∀ (j start fuel : Nat), (∀ i, i < j → ctxDone (start + i) = false) →
      ctxDone (start + j) = true → j < fuel →
      lockLoop tryLock ctxDone start fuel = .cancelled (start + j + 1) := by
  intro j
  induction j with
  | zero =>
    intro start fuel _ hd hf
    rcases fuel with _ | f
    · omega
    · have hd' : ctxDone start = true := by simpa using hd
      simp [lockLoop, hT start, hd']
  | succ j ih =>
    intro start fuel hlt hd hf
    rcases fuel with _ | f
    · omega
    · have h0 : ctxDone start = false := by simpa using hlt 0 (Nat.succ_pos j)
      have hstep : lockLoop tryLock ctxDone start (f + 1)
          = lockLoop tryLock ctxDone (start + 1) f := by
        simp [lockLoop, hT start, h0]
      rw [hstep]
      have hrec := ih (start + 1) f
        (fun i hi => by
          have h := hlt (i + 1) (by omega)
          rw [show start + 1 + i = start + (i + 1) by omega]
          exact h)
        (by rw [show start + 1 + j = start + (j + 1) by omega]; exact hd)
        (by omega)
      rw [hrec]
      congr 1
      omega

/-- C4: if the lock is never free and the cancellation deadline derived from
the shell's context and the timeout has fired by the poll following sleep `k`,
the retry loop of `LockFile` does not retry indefinitely: it returns at the
first poll `j` that observes the cancellation (so after `j + 1` fixed-interval
sleeps, i.e. within one retry interval of the cancellation becoming visible),
and `LockFile` then fails with the context's own error value. -/
theorem lockLoop_cancellation :
    ∀ (tryLock ctxDone : Nat → Bool) (k fuel : Nat),
      (∀ i, tryLock i = false) →
      ctxDone k = true → k < fuel →
      (∃ j, j ≤ k ∧ (∀ i, i < j → ctxDone i = false) ∧ ctxDone j = true ∧
        lockLoop tryLock ctxDone 0 fuel = .cancelled (j + 1)) ∧
      (∀ (lockPath : String) (ctxErrVal : GoError),
        LockFileAcquire (.ok lockPath) none ctxErrVal tryLock ctxDone fuel
          = .error ctxErrVal) := by
  intro tryLock ctxDone k fuel hT hk hf
  have hex : ∃ n, ctxDone n = true := ⟨k, hk⟩
  have hjk : Nat.find hex ≤ k := Nat.find_min' hex hk
  have hjd : ctxDone (Nat.find hex) = true := Nat.find_spec hex
  have hlt : ∀ i, i < Nat.find hex → ctxDone i = false := fun i hi => by
    have := Nat.find_min hex hi
    simpa using this
  have hloop : lockLoop tryLock ctxDone 0 fuel = .cancelled (Nat.find hex + 1) := by
    have h := lockLoop_reaches tryLock ctxDone hT (Nat.find hex) 0 fuel
      (fun i hi => by simpa using hlt i hi) (by simpa using hjd) (by omega)
    simpa using h
  refine ⟨⟨Nat.find hex, hjk, hlt, hjd, hloop⟩, ?_⟩
  intro lockPath ctxErrVal
  simp [LockFileAcquire, hloop]

/-- Witness for C4: with the lock always held elsewhere and the deadline
firing from the poll after sleep 2 onwards, the loop returns after exactly 3
sleeps and `LockFile` fails with the context's error. -/
theorem lockLoop_cancellation_witness :
    lockLoop (fun _ => false) (fun i => decide (2 ≤ i)) 0 4 = .cancelled 3 ∧
    LockFileAcquire (.ok "/var/lock/agent.pid") none (.errorf "context deadline exceeded")
      (fun _ => false) (fun i => decide (2 ≤ i)) 4
      = .error (.errorf "context deadline exceeded") := by
  have h := lockLoop_cancellation (fun _ => false) (fun i => decide (2 ≤ i)) 2 4
    (fun _ => rfl) (by decide) (by decide)
  obtain ⟨⟨j, hj2, hlt, hdj, heq⟩, h2⟩ := h
  have hj : j = 2 := by
    have h2j : 2 ≤ j := by simpa using hdj
    omega
  subst hj
  exact ⟨heq, h2 _ _⟩
